import Mathlib

/-!
Verification of the Stylus instrumentation pipeline and runtime surface.

This file shallowly embeds, in Lean 4, the parts of the repository that the
stated properties concern:

* `arbitrator/prover/src/value.rs` — the `Value` tagged union, its proof
  serialization and consensus hash;
* `arbitrator/prover/src/programs/config.rs` — `PricingParams`;
* `arbitrator/prover/src/programs/mod.rs` — the `ModuleMod` abstraction as
  implemented for the JIT `ModuleInfo` and the interpreter `WasmBinary`;
* `arbitrator/polyglot/src/depth.rs` — the `DepthChecker` middleware
  (`worst_case_depth` and `FunctionDepthChecker::feed`);
* `arbitrator/stylus/src/host.rs` — `emit_log` and `lib_ecrecover`;
* `arbitrator/stylus/src/lib.rs` — the gas write-back of `stylus_call`.

Machine integers are embedded as `Nat` (with explicit wrap/saturation where
the Rust code wraps or saturates), byte strings as `List Nat`, fallible code
as `Except`.
-/

set_option maxRecDepth 10000

/-! ## Byte-string utilities -/

/-- Big-endian bytes of a `u32` (`u32::to_be_bytes`). -/
def u32BeBytes (x : Nat) : List Nat :=
  [x / 2 ^ 24 % 256, x / 2 ^ 16 % 256, x / 2 ^ 8 % 256, x % 256]

/-- Big-endian bytes of a `u64` (`u64::to_be_bytes`). -/
def u64BeBytes (x : Nat) : List Nat :=
  u32BeBytes (x / 2 ^ 32) ++ u32BeBytes x

/-- `u32 as i32` — reinterpret an unsigned 32-bit value as two's-complement. -/
def u32AsI32 (x : Nat) : Int :=
  if x % 2 ^ 32 < 2 ^ 31 then (x % 2 ^ 32 : Int) else (x % 2 ^ 32 : Int) - 2 ^ 32

/-! ## Keccak-256

A direct implementation of the (pre-SHA3) Keccak-256 function used by the
`sha3::Keccak256` hasher: Keccak-f[1600], rate 136, multi-rate padding with
domain byte `0x01`.  The sponge state is a list of 25 lanes, each a 64-bit
value carried as a `Nat`. -/

/-- Lane lookup with default 0. -/
def laneGet (a : List Nat) (i : Nat) : Nat := a.getD i 0

/-- 64-bit left rotation. -/
def rotl64 (x n : Nat) : Nat :=
  ((x % 2 ^ 64) * 2 ^ (n % 64) + (x % 2 ^ 64) / 2 ^ (64 - n % 64)) % 2 ^ 64

/-- The θ step of Keccak-f. -/
def keccakTheta (a : List Nat) : List Nat :=
  let c := (List.range 5).map fun x =>
    laneGet a x ^^^ laneGet a (x + 5) ^^^ laneGet a (x + 10) ^^^
      laneGet a (x + 15) ^^^ laneGet a (x + 20)
  let d := (List.range 5).map fun x =>
    laneGet c ((x + 4) % 5) ^^^ rotl64 (laneGet c ((x + 1) % 5)) 1
  (List.range 25).map fun i => laneGet a i ^^^ laneGet d (i % 5)

/-- Rotation offset of the ρ step for the lane at `x + 5 * y`. -/
def keccakRho (i : Nat) : Nat :=
  match i with
  | 1 => 1
  | 2 => 62
  | 3 => 28
  | 4 => 27
  | 5 => 36
  | 6 => 44
  | 7 => 6
  | 8 => 55
  | 9 => 20
  | 10 => 3
  | 11 => 10
  | 12 => 43
  | 13 => 25
  | 14 => 39
  | 15 => 41
  | 16 => 45
  | 17 => 15
  | 18 => 21
  | 19 => 8
  | 20 => 18
  | 21 => 2
  | 22 => 61
  | 23 => 56
  | 24 => 14
  | _ => 0

/-- The combined ρ and π steps of Keccak-f. -/
def keccakRhoPi (a : List Nat) : List Nat :=
  (List.range 25).map fun j =>
    let x := j % 5
    let y := j / 5
    let src := (x + 3 * y) % 5 + 5 * x
    rotl64 (laneGet a src) (keccakRho src)

/-- The χ step of Keccak-f. -/
def keccakChi (a : List Nat) : List Nat :=
  (List.range 25).map fun j =>
    let x := j % 5
    let y := j / 5
    laneGet a j ^^^
      (((laneGet a (5 * y + (x + 1) % 5)) ^^^ (2 ^ 64 - 1)) &&&
        laneGet a (5 * y + (x + 2) % 5))

/-- The ι-step constant of round `i` of Keccak-f[1600]. -/
def keccakRC (i : Nat) : Nat :=
  match i with
  | 0 => 1
  | 1 => 32898
  | 2 => 9223372036854808714
  | 3 => 9223372039002292224
  | 4 => 32907
  | 5 => 2147483649
  | 6 => 9223372039002292353
  | 7 => 9223372036854808585
  | 8 => 138
  | 9 => 136
  | 10 => 2147516425
  | 11 => 2147483658
  | 12 => 2147516555
  | 13 => 9223372036854775947
  | 14 => 9223372036854808713
  | 15 => 9223372036854808579
  | 16 => 9223372036854808578
  | 17 => 9223372036854775936
  | 18 => 32778
  | 19 => 9223372039002259466
  | 20 => 9223372039002292353
  | 21 => 9223372036854808704
  | 22 => 2147483649
  | 23 => 9223372039002292232
  | _ => 0

/-- One round of Keccak-f[1600]. -/
def keccakRound (a : List Nat) (rc : Nat) : List Nat :=
  let b := keccakChi (keccakRhoPi (keccakTheta a))
  (List.range 25).map fun i => if i = 0 then laneGet b 0 ^^^ rc else laneGet b i

/-- The full 24-round Keccak-f[1600] permutation. -/
def keccakF (a : List Nat) : List Nat :=
  (List.range 24).foldl (fun st i => keccakRound st (keccakRC i)) a

/-- Interpret (up to) eight bytes as a little-endian 64-bit lane. -/
def bytesToLane (bs : List Nat) : Nat :=
  bs.foldr (fun b acc => acc * 256 + b % 256) 0

/-- Little-endian bytes of a 64-bit lane. -/
def laneToBytes (x : Nat) : List Nat :=
  (List.range 8).map fun i => x / 256 ^ i % 256

/-- Absorb one 136-byte block into the sponge state. -/
def keccakAbsorbBlock (st : List Nat) (block : List Nat) : List Nat :=
  let st := (List.range 25).map fun i =>
    if i < 17 then laneGet st i ^^^ bytesToLane ((block.drop (8 * i)).take 8)
    else laneGet st i
  keccakF st

/-- Absorb `n` consecutive 136-byte blocks. -/
def keccakAbsorb : Nat → List Nat → List Nat → List Nat
  | 0, _, st => st
  | n + 1, bytes, st => keccakAbsorb n (bytes.drop 136) (keccakAbsorbBlock st (bytes.take 136))

/-- Keccak multi-rate padding (domain byte `0x01`, final bit `0x80`). -/
def keccakPad (len : Nat) : List Nat :=
  let q := 136 - len % 136
  if q = 1 then [0x81] else 0x01 :: List.replicate (q - 2) 0 ++ [0x80]

/-- The Keccak-256 digest of a byte string. -/
def keccak256 (msg : List Nat) : List Nat :=
  let padded := msg ++ keccakPad msg.length
  let st := keccakAbsorb (padded.length / 136) padded (List.replicate 25 0)
  laneToBytes (laneGet st 0) ++ laneToBytes (laneGet st 1) ++
    laneToBytes (laneGet st 2) ++ laneToBytes (laneGet st 3)

/-- The `sha3::Keccak256` incremental hasher, modelled extensionally: `update`
appends to the absorbed byte string and `finalize` produces the digest of
everything absorbed (the contract of the `digest::Digest` API). -/
structure Keccak256Hasher where
  buffer : List Nat
deriving DecidableEq

/-- `Keccak256::new()`. -/
def Keccak256Hasher.new : Keccak256Hasher := ⟨[]⟩

/-- `Digest::update`. -/
def Keccak256Hasher.update (h : Keccak256Hasher) (data : List Nat) : Keccak256Hasher :=
  ⟨h.buffer ++ data⟩

/-- `Digest::finalize`. -/
def Keccak256Hasher.finalize (h : Keccak256Hasher) : List Nat :=
  keccak256 h.buffer

/-! ## `prover/src/value.rs` — values and their consensus hash

`f32`/`f64` payloads are carried as their IEEE bit patterns (the code only
ever consumes them through `to_bits`, so the embedding stores the bits
directly). -/

/-- `ArbValueType` (`#[repr(u8)]`). -/
inductive ArbValueType where
  | I32
  | I64
  | F32
  | F64
  | RefNull
  | FuncRef
  | InternalRef
deriving DecidableEq

/-- `ArbValueType::serialize` — the `repr(u8)` discriminant. -/
def ArbValueType.serialize : ArbValueType → Nat
  | .I32 => 0
  | .I64 => 1
  | .F32 => 2
  | .F64 => 3
  | .RefNull => 4
  | .FuncRef => 5
  | .InternalRef => 6

/-- `ProgramCounter`. -/
structure ProgramCounter where
  module : Nat
  func : Nat
  inst : Nat
deriving DecidableEq

/-- `ProgramCounter::serialize`: a 32-byte value with bytes 20..23 the module,
24..27 the func, and 28..31 the inst, each as big-endian `u32`. -/
def ProgramCounter.serialize (pc : ProgramCounter) : List Nat :=
  List.replicate 20 0 ++ u32BeBytes pc.module ++ u32BeBytes pc.func ++ u32BeBytes pc.inst

/-- `Value` (`prover/src/value.rs`); float payloads are bit patterns. -/
inductive Value where
  | I32 (x : Nat)
  | I64 (x : Nat)
  | F32 (bits : Nat)
  | F64 (bits : Nat)
  | RefNull
  | FuncRef (x : Nat)
  | InternalRef (pc : ProgramCounter)
deriving DecidableEq

/-- `Value::ty`. -/
def Value.ty : Value → ArbValueType
  | .I32 _ => .I32
  | .I64 _ => .I64
  | .F32 _ => .F32
  | .F64 _ => .F64
  | .RefNull => .RefNull
  | .FuncRef _ => .FuncRef
  | .InternalRef _ => .InternalRef

/-- Modelled from the spec: the `Bytes32: From<u32>` conversion lives in
`prover/src/utils.rs`, which is not among the provided sources; per the spec
("integers ... zero-extended to 32 bytes") it zero-extends the big-endian
value, consistent with `ProgramCounter::serialize` in `value.rs`. -/
def bytes32OfU32 (x : Nat) : List Nat :=
  List.replicate 28 0 ++ u32BeBytes x

/-- Modelled from the spec: `Bytes32: From<u64>`, zero-extended big-endian. -/
def bytes32OfU64 (x : Nat) : List Nat :=
  List.replicate 24 0 ++ u64BeBytes x

/-- `Value::contents_for_proof`. -/
def Value.contents_for_proof : Value → List Nat
  | .I32 x => bytes32OfU32 x
  | .I64 x => bytes32OfU64 x
  | .F32 bits => bytes32OfU32 bits
  | .F64 bits => bytes32OfU64 bits
  | .RefNull => List.replicate 32 0
  | .FuncRef x => bytes32OfU32 x
  | .InternalRef pc => pc.serialize

/-- `Value::serialize_for_proof`: the type tag followed by the 32 content
bytes. -/
def Value.serialize_for_proof (v : Value) : List Nat :=
  v.ty.serialize :: v.contents_for_proof

/-- The bytes of the ASCII string literal `b"Value:"`. -/
def valueLabel : List Nat := [86, 97, 108, 117, 101, 58]

/-- `Value::hash`: three incremental updates (`b"Value:"`, the tag byte, the
contents) followed by finalization. -/
def Value.hash (v : Value) : List Nat :=
  (((Keccak256Hasher.new.update valueLabel).update [v.ty.serialize]).update
    v.contents_for_proof).finalize

/-- `PartialEq for Value`: equal type tags and equal proof contents. -/
def Value.valueEq (v w : Value) : Bool :=
  v.ty == w.ty && v.contents_for_proof == w.contents_for_proof

/-! ## `prover/src/programs/config.rs` — pricing -/

/-- `u64::MAX`. -/
def U64MAX : Nat := 2 ^ 64 - 1

/-- `u64::saturating_mul`. -/
def saturatingMulU64 (a b : Nat) : Nat := min (a * b) U64MAX

/-- `u64::saturating_add`. -/
def saturatingAddU64 (a b : Nat) : Nat := min (a + b) U64MAX

/-- `PricingParams`. -/
structure PricingParams where
  wasm_gas_price : Nat
  hostio_cost : Nat
deriving DecidableEq

/-- `PricingParams::evm_to_wasm`. -/
def PricingParams.evm_to_wasm (p : PricingParams) (evm_gas : Nat) : Except String Nat :=
  if p.wasm_gas_price = 0 then .error "gas price is zero"
  else .ok (saturatingMulU64 evm_gas 10000 / p.wasm_gas_price)

/-- `PricingParams::wasm_to_evm`. -/
def PricingParams.wasm_to_evm (p : PricingParams) (wasm_gas : Nat) : Nat :=
  saturatingMulU64 wasm_gas p.wasm_gas_price / 10000

/-! ## `stylus/src/lib.rs` — `stylus_call` gas write-back -/

/-- `UserOutcomeKind` — the outcome byte of the external interface.
Modelled from the spec: the enum itself lives in `arbutil/src/evm/user.rs`,
which is not among the provided sources; the spec fixes the variants
`{Success, Revert, Failure, OutOfGas (ink), OutOfStack}`. -/
inductive UserOutcomeKind where
  | Success
  | Revert
  | Failure
  | OutOfInk
  | OutOfStack
deriving DecidableEq

/-- `UserOutcome` — the outcome with its payload.  Modelled from the spec
(`{Success(bytes), Revert(bytes), Failure(error), OutOfGas, OutOfStack}`). -/
inductive UserOutcome where
  | Success (data : List Nat)
  | Revert (data : List Nat)
  | Failure (err : String)
  | OutOfInk
  | OutOfStack
deriving DecidableEq

/-- The kind of an outcome. -/
def UserOutcome.kind : UserOutcome → UserOutcomeKind
  | .Success _ => .Success
  | .Revert _ => .Revert
  | .Failure _ => .Failure
  | .OutOfInk => .OutOfInk
  | .OutOfStack => .OutOfStack

/-- Modelled from the spec: `PricingParams::ink_to_gas`, the ink→gas
direction of the pricing pair.  Its definition is not among the provided
sources; per the spec's glossary ("ink is the internal wasm-side accounting,
gas the external EVM-side accounting, related by `wasm_gas_price`") it is the
wasm→evm conversion `wasm_to_evm` of `config.rs`. -/
def PricingParams.ink_to_gas (p : PricingParams) (ink : Nat) : Nat :=
  p.wasm_to_evm ink

/-- The tail of `stylus_call` (`stylus/src/lib.rs`): classify the result of
`run_main` into an outcome byte, forfeit all ink when out of stack, and
convert the remaining ink to the gas written back through the `gas`
pointer.  `instanceInk` is the value of `instance.ink_left().into()`. -/
def stylusCallWriteBack (p : PricingParams) (runResult : Except String UserOutcome)
    (instanceInk : Nat) : UserOutcomeKind × Nat :=
  let status : UserOutcomeKind :=
    match runResult with
    | .error _ => .Failure
    | .ok (.Failure _) => .Failure
    | .ok outcome => outcome.kind
  let ink_left : Nat :=
    match status with
    | .OutOfStack => 0
    | _ => instanceInk
  (status, p.ink_to_gas ink_left)

/-! ## `prover/src/programs/mod.rs` — the `ModuleMod` abstraction

Hash maps are embedded as association lists with key-overwriting insertion;
only the fields touched by the operations under verification are carried. -/

/-- Lookup in an association list (`HashMap::get`). -/
def alistGet {β : Type} (k : String) : List (String × β) → Option β
  | [] => none
  | (k2, v) :: rest => if k = k2 then some v else alistGet k rest

/-- Key-overwriting insertion (`HashMap::insert`). -/
def alistPut {β : Type} (k : String) (v : β) : List (String × β) → List (String × β)
  | [] => [(k, v)]
  | (k2, v2) :: rest => if k = k2 then (k, v) :: rest else (k2, v2) :: alistPut k v rest

/-- Lookup in a `Nat`-keyed association list. -/
def nlistGet {β : Type} (k : Nat) : List (Nat × β) → Option β
  | [] => none
  | (k2, v) :: rest => if k = k2 then some v else nlistGet k rest

/-- Key-overwriting insertion in a `Nat`-keyed association list. -/
def nlistPut {β : Type} (k : Nat) (v : β) : List (Nat × β) → List (Nat × β)
  | [] => [(k, v)]
  | (k2, v2) :: rest => if k = k2 then (k, v) :: rest else (k2, v2) :: nlistPut k v rest

/-- `wasmer::ExportIndex`. -/
inductive ExportIndex where
  | Function (i : Nat)
  | Table (i : Nat)
  | Memory (i : Nat)
  | Global (i : Nat)
deriving DecidableEq

/-- A wasmer `MemoryType`: page counts as in `wasmer_types` (`Pages` is a
`u32` newtype). -/
structure WasmerMemoryType where
  minimum : Nat
  maximum : Option Nat
deriving DecidableEq

/-- The JIT compiler's `wasmer_types::ModuleInfo`, restricted to the fields
read or written by `move_start_function` and `limit_heap`. -/
structure WasmerModuleInfo where
  exports : List (String × ExportIndex)
  start_function : Option Nat
  function_names : List (Nat × String)
  memories : List WasmerMemoryType
deriving DecidableEq

/-- `ModuleMod for ModuleInfo::move_start_function`. -/
def WasmerModuleInfo.move_start_function (m : WasmerModuleInfo) (name : String) :
    Except String WasmerModuleInfo :=
  match alistGet name m.exports with
  | some _ => .error "function already exists"
  | none =>
    match m.start_function with
    | some start =>
      .ok { m with
            start_function := none
            exports := alistPut name (.Function start) m.exports
            function_names := nlistPut start name m.function_names }
    | none => .ok m

/-- The body of the `for` loop of `ModuleInfo::limit_heap`: set
`maximum := min(maximum.unwrap_or(limit), limit)` and fail if the minimum
exceeds the bound. -/
def limitWasmerMemory (limit : Nat) (memory : WasmerMemoryType) :
    Except String WasmerMemoryType :=
  let bound := memory.maximum.getD limit
  let bound := min bound limit
  if memory.minimum > bound then .error "module memory minimum exceeds limit"
  else .ok { memory with maximum := some bound }

/-- The `for (_, memory) in &mut self.memories` loop of
`ModuleInfo::limit_heap`, clamping each memory in order and stopping at the
first failure. -/
def limitMemories (limit : Nat) : List WasmerMemoryType →
    Except String (List WasmerMemoryType)
  | [] => .ok []
  | memory :: rest =>
    match limitWasmerMemory limit memory with
    | .error e => .error e
    | .ok m1 =>
      match limitMemories limit rest with
      | .error e => .error e
      | .ok ms => .ok (m1 :: ms)

/-- `ModuleMod for ModuleInfo::limit_heap`: fail on more than one memory,
then clamp each (hence the at most one) memory. -/
def WasmerModuleInfo.limit_heap (m : WasmerModuleInfo) (limit : Nat) :
    Except String WasmerModuleInfo :=
  if m.memories.length > 1 then .error "multi-memory extension not supported"
  else
    match limitMemories limit m.memories with
    | .error e => .error e
    | .ok memories => .ok { m with memories := memories }

/-- `binary::ExportKind`. -/
inductive ExportKind where
  | Func
  | Table
  | Memory
  | Global
  | Tag
deriving DecidableEq

/-- A `wasmparser::MemoryType` as stored in `WasmBinary` (64-bit limits;
`initial` is the declared minimum). -/
structure BinMemoryType where
  initial : Nat
  maximum : Option Nat
deriving DecidableEq

/-- The interpreter's parsed `WasmBinary`, restricted to the fields read or
written by `move_start_function` and `limit_heap` (`names.functions` is the
debug-names map). -/
structure WasmBinary where
  exports : List (String × (Nat × ExportKind))
  start : Option Nat
  names_functions : List (Nat × String)
  memories : List BinMemoryType
deriving DecidableEq

/-- `ModuleMod for WasmBinary::move_start_function`. -/
def WasmBinary.move_start_function (b : WasmBinary) (name : String) :
    Except String WasmBinary :=
  match alistGet name b.exports with
  | some _ => .error "function already exists"
  | none =>
    match b.start with
    | some start =>
      .ok { b with
            start := none
            exports := alistPut name (start, ExportKind.Func) b.exports
            names_functions := nlistPut start name b.names_functions }
    | none => .ok b

/-- `ModuleMod for WasmBinary::limit_heap`: fail on more than one memory,
then clamp the first memory if present (`memories.first_mut()`); the `u32`
page limit is widened to the binary's `u64` limit type. -/
def WasmBinary.limit_heap (b : WasmBinary) (limit : Nat) : Except String WasmBinary :=
  if b.memories.length > 1 then .error "multi-memory extension not supported"
  else
    match b.memories with
    | [] => .ok b
    | memory :: rest =>
      let bound := memory.maximum.getD limit
      let bound := min bound limit
      if memory.initial > bound then .error "module memory minimum exceeds limit"
      else .ok { b with memories := { memory with maximum := some bound } :: rest }

/-! ## `stylus/src/host.rs` — host functions

The invocation state (`WasmEnv` in `stylus/src/env.rs`, which is not among
the provided sources) is modelled from the spec as a gas counter, a memory
view and the log sink; host escapes carry the state reached so far so that
"gas unspent" is observable. -/

/-- The host `Escape` classification (spec §7 / glossary). -/
inductive Escape where
  | Logical (msg : String)
  | Internal (msg : String)
  | OutOfGas
deriving DecidableEq

/-- An emitted EVM log record: the raw payload handed to
`evm().emit_log(data, topics)`. -/
structure EvmLogRecord where
  data : List Nat
  topics : Nat
deriving DecidableEq

/-- The per-invocation host state visible to the embedded host calls. -/
structure HostEnv where
  gas_left : Nat
  memory : List Nat
  logs : List EvmLogRecord
deriving DecidableEq

/-- The result of a host call: a normal result, or an escape together with
the state at the moment of escaping. -/
abbrev HostResult (α : Type) : Type := Except (Escape × HostEnv) α

/-- Modelled from the spec (§4.9 step 4): `WasmEnv::buy_gas` deducts a cost
from the remaining gas and escapes with `OutOfGas` when the balance is
insufficient (leaving the balance untouched). -/
def HostEnv.buy_gas (env : HostEnv) (cost : Nat) : HostResult HostEnv :=
  if env.gas_left < cost then .error (.OutOfGas, env)
  else .ok { env with gas_left := env.gas_left - cost }

/-- Modelled from the spec (§4.9): every read of user memory bounds-checks
against the active memory view and fails with `Escape::Logical` on
violation. -/
def HostEnv.read_slice (env : HostEnv) (ptr len : Nat) : HostResult (List Nat) :=
  if ptr + len ≤ env.memory.length then .ok ((env.memory.drop ptr).take len)
  else .error (.Logical "out of bounds memory access", env)

/-- Modelled from the spec (§4.9): bounds-checked write into user memory. -/
def HostEnv.write_slice (env : HostEnv) (ptr : Nat) (data : List Nat) : HostResult HostEnv :=
  if ptr + data.length ≤ env.memory.length then
    .ok { env with memory :=
            (env.memory.take ptr) ++ data ++ env.memory.drop (ptr + data.length) }
  else .error (.Logical "out of bounds memory access", env)

/-- Modelled from the spec: the EVM log-gas constants referenced from
`arbutil::evm` (not among the provided sources); the values are the EVM
parameters `LogTopicGas = 375` and `LogDataGas = 8`. -/
def LOG_TOPIC_GAS : Nat := 375

/-- Modelled from the spec: see `LOG_TOPIC_GAS`. -/
def LOG_DATA_GAS : Nat := 8

/-- Modelled from the spec: the EVM `ECRECOVER` precompile cost referenced as
`evm::ECRECOVER_GAS` (EVM parameter 3000). -/
def ECRECOVER_GAS : Nat := 3000

/-- `emit_log` (`stylus/src/host.rs`): validate the topic data, pay the
topic and data gas, then read the payload and emit the log.  The `u32 → u64`
widenings of `len` and `topics` are identities on `Nat`; the external
`evm().emit_log` call is modelled as appending the record. -/
def emit_log (env : HostEnv) (data len topics : Nat) : HostResult HostEnv :=
  if len < topics * 32 ∨ topics > 4 then
    .error (.Logical "bad topic data", env)
  else
    match env.buy_gas ((1 + topics) * LOG_TOPIC_GAS) with
    | .error e => .error e
    | .ok env =>
      match env.buy_gas ((len - topics * 32) * LOG_DATA_GAS) with
      | .error e => .error e
      | .ok env =>
        match env.read_slice data len with
        | .error e => .error e
        | .ok payload => .ok { env with logs := env.logs ++ [⟨payload, topics⟩] }

/-- The secp256k1 group order `n`, as the 32-byte constant `SECP256K1N` of
`lib_ecrecover`. -/
def SECP256K1N : List Nat :=
  [0xff, 0xff, 0xff, 0xff, 0xff, 0xff, 0xff, 0xff,
   0xff, 0xff, 0xff, 0xff, 0xff, 0xff, 0xff, 0xfe,
   0xba, 0xae, 0xdc, 0xe6, 0xaf, 0x48, 0xa0, 0x3b,
   0xbf, 0xd2, 0x5e, 0x8c, 0xd0, 0x36, 0x41, 0x41]

/-- Lexicographic `>` on equal-length byte arrays (`PartialOrd for [u8; 32]`),
which on 32-byte arrays coincides with big-endian numeric comparison. -/
def bytesGt : List Nat → List Nat → Bool
  | a :: as2, b :: bs2 =>
    if a > b then true else if a < b then false else bytesGt as2 bs2
  | _, _ => false

/-- `lib_ecrecover` (`stylus/src/host.rs`).  The external secp256k1 recovery
(`RecoverableSignature::from_compact` + `recover_ecdsa` + uncompressed
serialization, dropping the leading `0x04`) is abstracted as `recover`,
taking the recovery id, the 64-byte compact signature and the 32-byte
message hash, and returning the 64-byte public key or a library error.
Pointer arguments have already been resolved into the four 32-byte reads.
`v[31] - 27` is `u8` subtraction, embedded with release-mode wrapping;
`RecoveryId::from_i32` succeeds exactly on `0..=3`.  The mapping of
secp256k1 library errors propagated by `?` lives in the absent `env.rs` and
is modelled from the spec: invalid ecrecover parameters are host logical
errors (spec §7), so these escapes are `Logical`. -/
def lib_ecrecover (recover : Nat → List Nat → List Nat → Option (List Nat))
    (env : HostEnv) (hash v r s : List Nat) (result : Nat) : HostResult HostEnv :=
  match env.buy_gas ECRECOVER_GAS with
  | .error e => .error e
  | .ok env =>
    if v.take 31 ≠ List.replicate 31 0 then
      .error (.Logical "invalid v parameter", env)
    else
      let vid := (v.getD 31 0 + 256 - 27) % 256
      if vid > 3 then
        .error (.Logical "secp256k1 error", env)
      else if bytesGt r SECP256K1N then
        .error (.Logical "invalid r parameter", env)
      else if bytesGt s SECP256K1N then
        .error (.Logical "invalid s parameter", env)
      else
        match recover vid (r ++ s) hash with
        | none => .error (.Logical "secp256k1 error", env)
        | some key =>
          let address := (keccak256 key).drop 12
          env.write_slice result address

/-! ## `polyglot/src/depth.rs` — the depth-checking middleware

The `wasmparser::Operator` enumeration, restricted to the operators named by
the `worst_case_depth` match plus representatives of its unsupported
proposal families and of the operators that reach its catch-all arm.
Payloads are carried exactly where the middleware reads them (call indices,
global indices, constant values, block types); memory immediates and other
ignored payloads are dropped. -/

/-- `wasmer::Type` — the wasmer value types appearing in signatures. -/
inductive WasmType where
  | i32
  | i64
  | f32
  | f64
  | funcRef
  | externRef
deriving DecidableEq

/-- `wasmparser::TypeOrFuncType` as used for block types; `Empty` is
`Type(EmptyBlockType)`. -/
inductive BlockType where
  | Empty
  | Value (t : WasmType)
  | Func (i : Nat)
deriving DecidableEq

/-- A wasmer `FunctionType`: ordered parameter and result types. -/
structure WasmerFunctionType where
  params : List WasmType
  results : List WasmType
deriving DecidableEq

/-- `wasmparser::Operator`. -/
inductive Operator where
  -- control flow
  | Unreachable
  | Nop
  | Block (ty : BlockType)
  | Loop (ty : BlockType)
  | If (ty : BlockType)
  | Else
  | End
  | Br (relative_depth : Nat)
  | BrIf (relative_depth : Nat)
  | BrTable
  | Return
  | Call (function_index : Nat)
  | CallIndirect (index : Nat)
  | Drop
  | Select
  -- variables and memory administration
  | LocalGet (local_index : Nat)
  | LocalSet (local_index : Nat)
  | LocalTee (local_index : Nat)
  | GlobalGet (global_index : Nat)
  | GlobalSet (global_index : Nat)
  | MemorySize
  | MemoryGrow
  -- constants
  | I32Const (value : Int)
  | I64Const (value : Int)
  | F32Const (bits : Nat)
  | F64Const (bits : Nat)
  -- loads
  | I32Load
  | I64Load
  | F32Load
  | F64Load
  | I32Load8S
  | I32Load8U
  | I32Load16S
  | I32Load16U
  | I64Load8S
  | I64Load8U
  | I64Load16S
  | I64Load16U
  | I64Load32S
  | I64Load32U
  -- stores
  | I32Store
  | I64Store
  | F32Store
  | F64Store
  | I32Store8
  | I32Store16
  | I64Store8
  | I64Store16
  | I64Store32
  -- integer unary operators
  | I32Eqz
  | I64Eqz
  | I32Clz
  | I32Ctz
  | I32Popcnt
  | I64Clz
  | I64Ctz
  | I64Popcnt
  -- conversions
  | I32WrapI64
  | I64ExtendI32S
  | I64ExtendI32U
  | I32Extend8S
  | I32Extend16S
  | I64Extend8S
  | I64Extend16S
  | I64Extend32S
  -- comparisons
  | I32Eq
  | I32Ne
  | I32LtS
  | I32LtU
  | I32GtS
  | I32GtU
  | I32LeS
  | I32LeU
  | I32GeS
  | I32GeU
  | I64Eq
  | I64Ne
  | I64LtS
  | I64LtU
  | I64GtS
  | I64GtU
  | I64LeS
  | I64LeU
  | I64GeS
  | I64GeU
  | F32Eq
  | F32Ne
  | F32Lt
  | F32Gt
  | F32Le
  | F32Ge
  | F64Eq
  | F64Ne
  | F64Lt
  | F64Gt
  | F64Le
  | F64Ge
  -- integer arithmetic and bit operations
  | I32Add
  | I32Sub
  | I32Mul
  | I32DivS
  | I32DivU
  | I32RemS
  | I32RemU
  | I64Add
  | I64Sub
  | I64Mul
  | I64DivS
  | I64DivU
  | I64RemS
  | I64RemU
  | I32And
  | I32Or
  | I32Xor
  | I32Shl
  | I32ShrS
  | I32ShrU
  | I32Rotl
  | I32Rotr
  | I64And
  | I64Or
  | I64Xor
  | I64Shl
  | I64ShrS
  | I64ShrU
  | I64Rotl
  | I64Rotr
  -- float arithmetic (reaches the catch-all `unimplemented!` arm of
  -- `worst_case_depth`, as do `Return`, `Loop` and `BrTable`)
  | F32Add
  | F64Add
  -- exception-handling proposal
  | Try
  | Catch
  | Throw
  | Rethrow
  -- reference-types proposal
  | TypedSelect
  -- bulk-memory proposal
  | MemoryInit
  | DataDrop
  | MemoryCopy
  | MemoryFill
  | TableInit
  | ElemDrop
  | TableCopy
  | TableFill
  | TableGet
  | TableSet
  | TableGrow
  | TableSize
  -- threads proposal (representatives; the remaining atomic opcodes sit in
  -- the same match arm of the source)
  | MemoryAtomicNotify
  | I32AtomicLoad
  | I32AtomicStore
  | I32AtomicRmwAdd
  -- SIMD proposal (representatives; the remaining vector opcodes sit in the
  -- same match arm of the source)
  | V128Load
  | V128Store
  | V128Const
  | I8x16Shuffle

/-- The module data `worst_case_depth` consults: `ModuleInfo.functions` maps
function indices to signature indices, `ModuleInfo.signatures` maps
signature indices to function types (both wasmer `PrimaryMap`s, embedded as
lists indexed by position). -/
structure DepthModuleInfo where
  functions : List Nat
  signatures : List WasmerFunctionType
deriving DecidableEq

/-- The running state of `worst_case_depth`: the current depth, the running
maximum, and the stack of scope snapshots (`scopes` starts as `vec![stack]`
and grows rightward; the head of the list is the top). -/
structure DepthState where
  stack : Nat
  worst : Nat
  scopes : List Nat
deriving DecidableEq

/-- One iteration of the `worst_case_depth` loop.  `push!` adds to `stack`
and folds it into `worst`; `pop!` is `u32::saturating_sub`.  For `Call` and
`CallIndirect` the source binds `(outs, ins)` to
`(params().len(), results().len())` and performs `push!(outs)` then
`pop!(ins)`.  The `unimplemented!` panic of the catch-all arm is embedded as
an error result. -/
def depthStep (module : DepthModuleInfo) (s : DepthState) (op : Operator) :
    Except String DepthState :=
  match op with
  | .Block _ =>
    .ok { s with scopes := s.stack :: s.scopes }
  | .If _ =>
    let stack := s.stack - 1
    .ok { s with stack := stack, scopes := stack :: s.scopes }
  | .Else =>
    match s.scopes.head? with
    | some scope => .ok { s with stack := scope }
    | none => .error "Malformed if-else scope"
  | .End =>
    match s.scopes with
    | stack :: scopes => .ok { s with stack := stack, scopes := scopes }
    | [] => .error "Malformed scoping detected at end of block"
  | .Call function_index =>
    match module.functions.get? function_index with
    | none => .error "No function at index"
    | some sig =>
      match module.signatures.get? sig with
      | none => .error "No function signature for call"
      | some ty =>
        let outs := ty.params.length
        let ins := ty.results.length
        let stack := s.stack + outs
        let worst := max s.worst stack
        .ok { s with stack := stack - ins, worst := worst }
  | .CallIndirect index =>
    match module.signatures.get? index with
    | none => .error "No table at index"
    | some ty =>
      let outs := ty.params.length
      let ins := ty.results.length
      let stack := s.stack + outs
      let worst := max s.worst stack
      .ok { s with stack := stack - ins, worst := worst }
  | .Nop | .Unreachable
  | .I32Eqz | .I64Eqz | .I32Clz | .I32Ctz | .I32Popcnt | .I64Clz | .I64Ctz | .I64Popcnt
  | .Br _
  | .LocalTee _ | .MemoryGrow
  | .I32Load | .I64Load | .F32Load | .F64Load
  | .I32Load8S | .I32Load8U | .I32Load16S | .I32Load16U | .I64Load8S | .I64Load8U
  | .I64Load16S | .I64Load16U | .I64Load32S | .I64Load32U
  | .I32WrapI64 | .I64ExtendI32S | .I64ExtendI32U
  | .I32Extend8S | .I32Extend16S | .I64Extend8S | .I64Extend16S | .I64Extend32S =>
    .ok s
  | .LocalGet _ | .GlobalGet _ | .MemorySize
  | .I32Const _ | .I64Const _ | .F32Const _ | .F64Const _ =>
    let stack := s.stack + 1
    .ok { s with stack := stack, worst := max s.worst stack }
  | .Drop
  | .I32Eq | .I32Ne | .I32LtS | .I32LtU | .I32GtS | .I32GtU | .I32LeS | .I32LeU
  | .I32GeS | .I32GeU
  | .I64Eq | .I64Ne | .I64LtS | .I64LtU | .I64GtS | .I64GtU | .I64LeS | .I64LeU
  | .I64GeS | .I64GeU
  | .F32Eq | .F32Ne | .F32Lt | .F32Gt | .F32Le | .F32Ge
  | .F64Eq | .F64Ne | .F64Lt | .F64Gt | .F64Le | .F64Ge
  | .I32Add | .I32Sub | .I32Mul | .I32DivS | .I32DivU | .I32RemS | .I32RemU
  | .I64Add | .I64Sub | .I64Mul | .I64DivS | .I64DivU | .I64RemS | .I64RemU
  | .I32And | .I32Or | .I32Xor | .I32Shl | .I32ShrS | .I32ShrU | .I32Rotl | .I32Rotr
  | .I64And | .I64Or | .I64Xor | .I64Shl | .I64ShrS | .I64ShrU | .I64Rotl | .I64Rotr
  | .BrIf _ | .LocalSet _ | .GlobalSet _ =>
    .ok { s with stack := s.stack - 1 }
  | .Select
  | .I32Store | .I64Store | .F32Store | .F64Store | .I32Store8 | .I32Store16
  | .I64Store8 | .I64Store16 | .I64Store32 =>
    .ok { s with stack := s.stack - 2 }
  | .Try | .Catch | .Throw | .Rethrow =>
    .error "exception-handling extension not supported"
  | .TypedSelect =>
    .error "reference-types extension not supported"
  | .MemoryInit | .DataDrop | .MemoryCopy | .MemoryFill | .TableInit | .ElemDrop
  | .TableCopy | .TableFill | .TableGet | .TableSet | .TableGrow | .TableSize =>
    .error "bulk-memory-operations extension not supported"
  | .MemoryAtomicNotify | .I32AtomicLoad | .I32AtomicStore | .I32AtomicRmwAdd =>
    .error "threads extension not supported"
  | .V128Load | .V128Store | .V128Const | .I8x16Shuffle =>
    .error "SIMD extension not supported"
  | .Return | .Loop _ | .BrTable | .F32Add | .F64Add =>
    .error "unimplemented"

/-- `worst_case_depth`: fold the operator stream from depth 0 with the
initial scope snapshot `vec![stack]`, and return `worst + 4`. -/
def worst_case_depth (module : DepthModuleInfo) (code : List Operator) :
    Except String Nat := do
  let s ← code.foldlM (depthStep module) ⟨0, 0, [0]⟩
  .ok (s.worst + 4)

/-- The state of a `FunctionDepthChecker` between feeds: the buffered
operators, the open-scope count (a function starts with one open scope), and
the finalization flag. -/
structure FunctionDepthChecker where
  space : Nat
  code : List Operator
  scopes : Int
  done : Bool

/-- `FunctionDepthChecker::new` for the stack-space global `space`. -/
def FunctionDepthChecker.new (space : Nat) : FunctionDepthChecker :=
  ⟨space, [], 1, false⟩

/-- The operator sequence emitted at function entry: trap (after zeroing the
global) when the remaining space is below `size`, else subtract `size`. -/
def depthEntryOps (global_index : Nat) (size : Int) : List Operator :=
  [.GlobalGet global_index, .I32Const size, .I32LtU,
   .If .Empty, .I32Const 0, .GlobalSet global_index, .Unreachable, .End,
   .GlobalGet global_index, .I32Const size, .I32Sub, .GlobalSet global_index]

/-- The reclaim sequence: add `size` back to the global. -/
def depthReclaimOps (global_index : Nat) (size : Int) : List Operator :=
  [.GlobalGet global_index, .I32Const size, .I32Add, .GlobalSet global_index]

/-- Whether an operator is `End` (`matches!(operator, Operator::End)`). -/
def Operator.isEnd : Operator → Bool
  | .End => true
  | _ => false

/-- The scope delta `feed` applies per operator. -/
def scopeDelta : Operator → Int
  | .Block _ | .Loop _ | .If _ => 1
  | .End => -1
  | _ => 0

/-- The full operator stream `feed` emits once the final `End` arrives, for
a function whose buffered body is `code` and whose `worst_case_depth` came
out as `w`: the entry sequence, then the original operators with the
reclaim sequence emitted immediately before each `Return`, then a final
reclaim after the terminal `End`. -/
def depthInstrumentedBody (global_index : Nat) (w : Nat) (code : List Operator) :
    List Operator :=
  depthEntryOps global_index (u32AsI32 w) ++
  code.flatMap (fun op =>
    match op with
    | .Return => depthReclaimOps global_index (u32AsI32 w) ++ [op]
    | _ => [op]) ++
  depthReclaimOps global_index (u32AsI32 w)

/-- `FunctionDepthChecker::feed`: buffer operators while counting scopes;
on the final `End` (the one closing the function's opening scope) compute
the frame size (the `?` on `worst_case_depth` propagates its error, and its
`unimplemented!` panic is embedded as an error as well) and emit the
instrumented body.  Returns the successor state together with the operators
pushed into the middleware reader state. -/
def FunctionDepthChecker.feed (module : DepthModuleInfo) (f : FunctionDepthChecker)
    (operator : Operator) : Except String (FunctionDepthChecker × List Operator) :=
  if f.done then .error "Finalized too soon"
  else
    let scopes := f.scopes + scopeDelta operator
    if scopes < 0 then .error "Malformed scoping detected"
    else
      let last := decide (scopes = 0) && operator.isEnd
      let code := f.code ++ [operator]
      if last then
        match worst_case_depth module code with
        | .error e => .error e
        | .ok w =>
          .ok ({ f with code := [], scopes := scopes, done := true },
               depthInstrumentedBody f.space w code)
      else
        .ok ({ f with code := code, scopes := scopes }, [])

/-- Drive a `FunctionDepthChecker` over a whole operator stream,
concatenating everything it emits. -/
def feedAll (module : DepthModuleInfo) (f : FunctionDepthChecker) :
    List Operator → Except String (FunctionDepthChecker × List Operator)
  | [] => .ok (f, [])
  | op :: rest =>
    match FunctionDepthChecker.feed module f op with
    | .error e => .error e
    | .ok (f1, out1) =>
      match feedAll module f1 rest with
      | .error e => .error e
      | .ok (f2, out2) => .ok (f2, out1 ++ out2)

/-- A well-formed function body for `feed`: scopes never become negative,
and the open count first returns to zero on the very last operator, which is
the `End` closing the function's opening scope. -/
def bodyCloses (scopes : Int) : List Operator → Bool
  | [] => false
  | op :: rest =>
    if scopes + scopeDelta op < 0 then false
    else if decide (scopes + scopeDelta op = 0) && op.isEnd then rest.isEmpty
    else bodyCloses (scopes + scopeDelta op) rest

/-! ## Claim-side transcriptions

Definitions below follow the words of the specification, for comparison with
the source-derived definitions above. -/

/-- The claim's stack-effect rule for calls, transcribed from the spec:
"`Call`: pop `#params`, push `#results` from the callee signature;
`CallIndirect`: pop one index operand, then pop `#params` and push
`#results` from the signature."  Every other operator is treated as the
source treats it. -/
def depthStepClaimed (module : DepthModuleInfo) (s : DepthState) (op : Operator) :
    Except String DepthState :=
  match op with
  | .Call function_index =>
    match module.functions.get? function_index with
    | none => .error "No function at index"
    | some sig =>
      match module.signatures.get? sig with
      | none => .error "No function signature for call"
      | some ty =>
        let stack := s.stack - ty.params.length + ty.results.length
        .ok { s with stack := stack, worst := max s.worst stack }
  | .CallIndirect index =>
    match module.signatures.get? index with
    | none => .error "No table at index"
    | some ty =>
      let stack := s.stack - 1 - ty.params.length + ty.results.length
      .ok { s with stack := stack, worst := max s.worst stack }
  | _ => depthStep module s op

/-- `worst_case_depth` under the claim's call rule. -/
def worst_case_depth_claimed (module : DepthModuleInfo) (code : List Operator) :
    Except String Nat := do
  let s ← code.foldlM (depthStepClaimed module) ⟨0, 0, [0]⟩
  .ok (s.worst + 4)

/-- The claim's validation predicate for `lib_ecrecover`, transcribed from
the spec: the 32-byte `v` encodes 27 or 28, and `r` and `s` are numerically
less than the secp256k1 group order. -/
def ecrecoverValidClaimed (v r s : List Nat) : Bool :=
  v.take 31 == List.replicate 31 0 &&
    (v.getD 31 0 == 27 || v.getD 31 0 == 28) &&
    bytesGt SECP256K1N r && bytesGt SECP256K1N s

/-! ## Shared helper lemmas -/

theorem u32BeBytes_length (x : Nat) : (u32BeBytes x).length = 4 := rfl

theorem u64BeBytes_length (x : Nat) : (u64BeBytes x).length = 8 := rfl

theorem ArbValueType.serialize_eq_iff (a b : ArbValueType) :
    a.serialize = b.serialize ↔ a = b := by
  constructor
  · intro h
    cases a <;> cases b <;> simp_all [ArbValueType.serialize]
  · intro h
    rw [h]

theorem ink_to_gas_zero (p : PricingParams) : p.ink_to_gas 0 = 0 := by
  simp [PricingParams.ink_to_gas, PricingParams.wasm_to_evm, saturatingMulU64]

/-! ## Claim theorems -/

/-- C6: `evm_to_wasm` fails exactly when `wasm_gas_price` is zero and
otherwise returns `saturating_mul(evm_gas, 10000) / wasm_gas_price`, while
`wasm_to_evm` always returns
`saturating_mul(wasm_gas, wasm_gas_price) / 10000`. -/
theorem pricing_conversion_contract (p : PricingParams) (g : Nat) :
    (p.evm_to_wasm g = .error "gas price is zero" ↔ p.wasm_gas_price = 0) ∧
    (p.wasm_gas_price ≠ 0 →
      p.evm_to_wasm g = .ok (min (g * 10000) U64MAX / p.wasm_gas_price)) ∧
    p.wasm_to_evm g = min (g * p.wasm_gas_price) U64MAX / 10000 := by
  refine ⟨?_, ?_, ?_⟩
  · unfold PricingParams.evm_to_wasm
    split <;> simp_all
  · intro h
    simp [PricingParams.evm_to_wasm, h, saturatingMulU64]
  · rfl

/-- Witness for C6 at `wasm_gas_price = 2`, `evm_gas = 6`. -/
theorem pricing_conversion_contract_witness :
    (⟨2, 0⟩ : PricingParams).evm_to_wasm 6 = .ok (min (6 * 10000) U64MAX / 2) :=
  (pricing_conversion_contract ⟨2, 0⟩ 6).2.1 (by decide)

/-- C4: in the `stylus_call` write-back, an `OutOfStack` outcome zeroes the
gas written back through the gas pointer, while every other outcome writes
the instrumented instance's remaining ink converted to gas. -/
theorem stylus_call_gas_write_back (p : PricingParams)
    (runResult : Except String UserOutcome) (instanceInk : Nat) :
    ((stylusCallWriteBack p runResult instanceInk).1 = .OutOfStack →
      (stylusCallWriteBack p runResult instanceInk).2 = 0) ∧
    ((stylusCallWriteBack p runResult instanceInk).1 ≠ .OutOfStack →
      (stylusCallWriteBack p runResult instanceInk).2 = p.ink_to_gas instanceInk) := by
  unfold stylusCallWriteBack
  rcases runResult with e | o
  · simp [ink_to_gas_zero]
  · cases o <;> simp [UserOutcome.kind, ink_to_gas_zero]

/-- Witness for C4 at the `OutOfStack` and `Success` outcomes. -/
theorem stylus_call_gas_write_back_witness :
    (stylusCallWriteBack ⟨3, 0⟩ (.ok .OutOfStack) 77).2 = 0 ∧
    (stylusCallWriteBack ⟨3, 0⟩ (.ok (.Success [1])) 77).2 =
      (⟨3, 0⟩ : PricingParams).ink_to_gas 77 :=
  ⟨(stylus_call_gas_write_back ⟨3, 0⟩ (.ok .OutOfStack) 77).1 (by decide),
   (stylus_call_gas_write_back ⟨3, 0⟩ (.ok (.Success [1])) 77).2 (by decide)⟩

/-- C7: `Value::hash` is the Keccak-256 digest of `b"Value:"` followed by
the one-byte type tag and the 32-byte proof contents (equivalently, of
`b"Value:"` followed by the 33-byte proof serialization). -/
theorem value_hash_digest (v : Value) :
    Value.hash v = keccak256 (valueLabel ++ v.ty.serialize :: v.contents_for_proof) ∧
    Value.hash v = keccak256 (valueLabel ++ v.serialize_for_proof) ∧
    v.contents_for_proof.length = 32 ∧
    v.serialize_for_proof.length = 33 := by
  refine ⟨?_, ?_, ?_, ?_⟩
  · simp [Value.hash, Keccak256Hasher.new, Keccak256Hasher.update,
      Keccak256Hasher.finalize]
  · simp [Value.hash, Keccak256Hasher.new, Keccak256Hasher.update,
      Keccak256Hasher.finalize, Value.serialize_for_proof]
  · cases v <;>
      simp [Value.contents_for_proof, bytes32OfU32, bytes32OfU64,
        ProgramCounter.serialize, u32BeBytes_length, u64BeBytes_length]
  · cases v <;>
      simp [Value.serialize_for_proof, Value.contents_for_proof, bytes32OfU32,
        bytes32OfU64, ProgramCounter.serialize, u32BeBytes_length, u64BeBytes_length]

/-- C10: `Value` equality holds exactly on equal type tags and equal 32-byte
proof contents — equivalently, equal proof serializations — so the hash is
determined by equality; float comparison is bit-level: identical NaN bit
patterns compare equal while `+0.0` and `-0.0` compare unequal. -/
theorem value_eq_bit_level :
    (∀ v w : Value, Value.valueEq v w = true ↔
      v.ty = w.ty ∧ v.contents_for_proof = w.contents_for_proof) ∧
    (∀ v w : Value, Value.valueEq v w = true ↔
      v.serialize_for_proof = w.serialize_for_proof) ∧
    (∀ v w : Value, Value.valueEq v w = true → Value.hash v = Value.hash w) ∧
    (∀ x y : Nat, x < 2 ^ 32 → y < 2 ^ 32 →
      (Value.valueEq (.F32 x) (.F32 y) = true ↔ x = y)) ∧
    Value.valueEq (.F32 0x7FC00000) (.F32 0x7FC00000) = true ∧
    Value.valueEq (.F32 0x80000000) (.F32 0) = false := by
  have heq : ∀ v w : Value, Value.valueEq v w = true ↔
      v.ty = w.ty ∧ v.contents_for_proof = w.contents_for_proof := by
    intro v w
    simp [Value.valueEq]
  refine ⟨heq, ?_, ?_, ?_, by decide, by decide⟩
  · intro v w
    rw [heq]
    simp [Value.serialize_for_proof, ArbValueType.serialize_eq_iff]
  · intro v w h
    rw [heq] at h
    simp [Value.hash, h.1, h.2]
  · intro x y hx hy
    rw [heq]
    simp only [Value.ty, Value.contents_for_proof, bytes32OfU32, true_and]
    constructor
    · intro h
      simp [u32BeBytes, List.replicate] at h
      omega
    · intro h
      rw [h]

/-- Witness for C10's bit-level float clause at `x = y = 5`. -/
theorem value_eq_bit_level_witness :
    Value.valueEq (.F32 5) (.F32 5) = true ↔ (5 : Nat) = 5 :=
  value_eq_bit_level.2.2.2.1 5 5 (by decide) (by decide)

/-- C3: for both module representations, `limit_heap(pages)` fails when the
module has more than one memory; with a single memory it sets the maximum to
`min(maximum.unwrap_or(pages), pages)` and fails when the declared minimum
exceeds that bound; with no memory it succeeds leaving the module
unchanged. -/
theorem limit_heap_contract (m : WasmerModuleInfo) (b : WasmBinary) (limit : Nat) :
    (m.limit_heap limit =
      match m.memories with
      | [] => .ok m
      | [memory] =>
        let bound := min (memory.maximum.getD limit) limit
        if memory.minimum > bound then .error "module memory minimum exceeds limit"
        else .ok { m with memories := [{ memory with maximum := some bound }] }
      | _ :: _ :: _ => .error "multi-memory extension not supported") ∧
    (b.limit_heap limit =
      match b.memories with
      | [] => .ok b
      | [memory] =>
        let bound := min (memory.maximum.getD limit) limit
        if memory.initial > bound then .error "module memory minimum exceeds limit"
        else .ok { b with memories := [{ memory with maximum := some bound }] }
      | _ :: _ :: _ => .error "multi-memory extension not supported") := by
  constructor
  · obtain ⟨ex, st, fn, mems⟩ := m
    match mems with
    | [] => rfl
    | [memory] =>
      by_cases hc : memory.minimum > min (memory.maximum.getD limit) limit
      · simp [WasmerModuleInfo.limit_heap, limitMemories, limitWasmerMemory, hc]
      · simp [WasmerModuleInfo.limit_heap, limitMemories, limitWasmerMemory, hc]
    | a :: c :: rest =>
      simp [WasmerModuleInfo.limit_heap]
  · obtain ⟨ex, st, fn, mems⟩ := b
    match mems with
    | [] => rfl
    | [memory] =>
      by_cases hc : memory.initial > min (memory.maximum.getD limit) limit
      · simp [WasmBinary.limit_heap, hc]
      · simp [WasmBinary.limit_heap, hc]
    | a :: c :: rest =>
      simp [WasmBinary.limit_heap]

/-- C5: for both module representations, `move_start_function(name)` fails
when `name` is already exported; otherwise with a start function set it
clears the start slot, adds the function export and records the debug name,
and with no start it succeeds unchanged — hence it is idempotent on a
module with no start function. -/
theorem move_start_function_contract (m : WasmerModuleInfo) (b : WasmBinary)
    (name : String) :
    (m.move_start_function name =
      match alistGet name m.exports with
      | some _ => .error "function already exists"
      | none =>
        match m.start_function with
        | some start =>
          .ok { m with
                start_function := none
                exports := alistPut name (.Function start) m.exports
                function_names := nlistPut start name m.function_names }
        | none => .ok m) ∧
    (b.move_start_function name =
      match alistGet name b.exports with
      | some _ => .error "function already exists"
      | none =>
        match b.start with
        | some start =>
          .ok { b with
                start := none
                exports := alistPut name (start, ExportKind.Func) b.exports
                names_functions := nlistPut start name b.names_functions }
        | none => .ok b) ∧
    (m.start_function = none →
      (m.move_start_function name).bind (fun m2 => m2.move_start_function name) =
        m.move_start_function name) ∧
    (b.start = none →
      (b.move_start_function name).bind (fun b2 => b2.move_start_function name) =
        b.move_start_function name) := by
  refine ⟨rfl, rfl, ?_, ?_⟩
  · intro h
    unfold WasmerModuleInfo.move_start_function
    rcases hg : alistGet name m.exports with _ | e
    · simp [Except.bind, h, hg]
    · simp [Except.bind, hg]
  · intro h
    unfold WasmBinary.move_start_function
    rcases hg : alistGet name b.exports with _ | e
    · simp [Except.bind, h, hg]
    · simp [Except.bind, hg]

/-- Witness for C5's idempotence clauses on start-less modules. -/
theorem move_start_function_contract_witness :
    ((⟨[], none, [], []⟩ : WasmerModuleInfo).move_start_function "stylus_start").bind
        (fun m2 => m2.move_start_function "stylus_start") =
      (⟨[], none, [], []⟩ : WasmerModuleInfo).move_start_function "stylus_start" ∧
    ((⟨[], none, [], []⟩ : WasmBinary).move_start_function "stylus_start").bind
        (fun b2 => b2.move_start_function "stylus_start") =
      (⟨[], none, [], []⟩ : WasmBinary).move_start_function "stylus_start" :=
  ⟨(move_start_function_contract ⟨[], none, [], []⟩ ⟨[], none, [], []⟩
      "stylus_start").2.2.1 rfl,
   (move_start_function_contract ⟨[], none, [], []⟩ ⟨[], none, [], []⟩
      "stylus_start").2.2.2 rfl⟩


theorem keccak256_length (msg : List Nat) : (keccak256 msg).length = 32 := by
  simp [keccak256, laneToBytes]

theorem buy_gas_cases (env : HostEnv) (cost : Nat) :
    env.buy_gas cost =
      if env.gas_left < cost then .error (.OutOfGas, env)
      else .ok ⟨env.gas_left - cost, env.memory, env.logs⟩ := by
  unfold HostEnv.buy_gas
  split <;> rfl

/-- C8: `emit_log` escapes with the `Logical` "bad topic data" error —
leaving the state, hence the gas and the log sink, untouched — exactly when
`topics > 4` or `len < 32·topics`; otherwise it pays
`LOG_TOPIC_GAS * (1 + topics)` plus `LOG_DATA_GAS` per data byte (the
`len - 32·topics` bytes beyond the topic words) before reading the payload
and emitting the log. -/
theorem emit_log_contract (env : HostEnv) (data len topics : Nat) :
    (emit_log env data len topics = .error (.Logical "bad topic data", env) ↔
      topics > 4 ∨ len < 32 * topics) ∧
    (¬(topics > 4 ∨ len < 32 * topics) →
      (1 + topics) * LOG_TOPIC_GAS + (len - topics * 32) * LOG_DATA_GAS ≤ env.gas_left →
      data + len ≤ env.memory.length →
      emit_log env data len topics =
        .ok { env with
              gas_left := env.gas_left -
                ((1 + topics) * LOG_TOPIC_GAS + (len - topics * 32) * LOG_DATA_GAS)
              logs := env.logs ++ [⟨(env.memory.drop data).take len, topics⟩] }) := by
  by_cases hc : len < topics * 32 ∨ topics > 4
  · refine ⟨?_, fun hcond => absurd (by omega : topics > 4 ∨ len < 32 * topics) hcond⟩
    rw [emit_log, if_pos hc]
    constructor
    · intro _
      omega
    · intro _
      rfl
  · refine ⟨?_, ?_⟩
    · rw [emit_log, if_neg hc]
      by_cases hg1 : env.gas_left < (1 + topics) * LOG_TOPIC_GAS
      · simp [buy_gas_cases, hg1]
        omega
      · by_cases hg2 : env.gas_left - (1 + topics) * LOG_TOPIC_GAS <
            (len - topics * 32) * LOG_DATA_GAS
        · simp [buy_gas_cases, hg1, hg2]
          omega
        · by_cases hr : data + len ≤ env.memory.length
          · simp [buy_gas_cases, HostEnv.read_slice, hg1, hg2, hr]
            omega
          · simp [buy_gas_cases, HostEnv.read_slice, hg1, hg2, hr]
            omega
    · intro hcond hgas hmem
      rw [emit_log, if_neg hc]
      have hg1 : ¬ env.gas_left < (1 + topics) * LOG_TOPIC_GAS := by omega
      have hg2 : ¬ env.gas_left - (1 + topics) * LOG_TOPIC_GAS <
          (len - topics * 32) * LOG_DATA_GAS := by omega
      simp [buy_gas_cases, HostEnv.read_slice, hg1, hg2, hmem]
      omega

/-- Witness for C8: one topic, 64 payload bytes, ample gas. -/
theorem emit_log_contract_witness :
    emit_log ⟨10000, List.replicate 100 7, []⟩ 0 64 1 =
      .ok { (⟨10000, List.replicate 100 7, []⟩ : HostEnv) with
            gas_left := 10000 - ((1 + 1) * LOG_TOPIC_GAS + (64 - 1 * 32) * LOG_DATA_GAS)
            logs := [] ++ [⟨(((List.replicate 100 7 : List Nat)).drop 0).take 64, 1⟩] } :=
  (emit_log_contract ⟨10000, List.replicate 100 7, []⟩ 0 64 1).2
    (by omega) (by decide) (by decide)

/-- C9: the validation of `lib_ecrecover` is weaker than claimed.  A `v`
byte of 29 (prefix zeros) passes `RecoveryId::from_i32(29 - 27)`, and with
`r = 2` and `s = 1` every remaining check passes and the recovery itself
deterministically succeeds in the real library (the recovery-id-2 candidate
point has x-coordinate `n + 2`, and `(n + 2)^3 + 7` is a quadratic residue
modulo the field prime, so a valid key is produced): whatever 64-byte key
the library returns, the call writes an address and returns successfully
instead of escaping with a `Logical` error (first conjunct), although the
claimed validation rejects this `v` (second conjunct).  A nonzero prefix in
`v` does produce the claimed `Logical` escape (third conjunct), and when
the library rejects an input — as it deterministically does for `r` equal
to the group order, which slips past the `r.gt(&SECP256K1N)` check — the
propagated error is still a `Logical` escape (fourth conjunct). -/
theorem lib_ecrecover_validation_gap :
    (∀ key : List Nat,
      ∃ envOut, lib_ecrecover (fun _ _ _ => some key)
        ⟨10000, List.replicate 40 0, []⟩ (List.replicate 32 0)
        (List.replicate 31 0 ++ [29]) (List.replicate 31 0 ++ [2])
        (List.replicate 31 0 ++ [1]) 0 = .ok envOut) ∧
    ecrecoverValidClaimed (List.replicate 31 0 ++ [29]) (List.replicate 31 0 ++ [2])
      (List.replicate 31 0 ++ [1]) = false ∧
    lib_ecrecover (fun _ _ _ => some (List.replicate 64 1))
      ⟨10000, List.replicate 40 0, []⟩ (List.replicate 32 0)
      (List.replicate 30 0 ++ [1, 27]) (List.replicate 31 0 ++ [1])
      (List.replicate 31 0 ++ [1]) 0 =
      .error (.Logical "invalid v parameter", ⟨7000, List.replicate 40 0, []⟩) ∧
    lib_ecrecover (fun _ _ _ => none)
      ⟨10000, List.replicate 40 0, []⟩ (List.replicate 32 0)
      (List.replicate 31 0 ++ [27]) SECP256K1N
      (List.replicate 31 0 ++ [1]) 0 =
      .error (.Logical "secp256k1 error", ⟨7000, List.replicate 40 0, []⟩) := by
  refine ⟨?_, by decide, rfl, rfl⟩
  intro key
  have h : HostEnv.write_slice ⟨7000, List.replicate 40 0, []⟩ 0 ((keccak256 key).drop 12) =
      .ok ⟨7000,
        (List.replicate 40 0 : List Nat).take 0 ++ (keccak256 key).drop 12 ++
          (List.replicate 40 0 : List Nat).drop (0 + ((keccak256 key).drop 12).length),
        []⟩ := by
    rw [HostEnv.write_slice, if_pos (by simp [keccak256_length])]
  exact ⟨_, h⟩

/-- C1 counterexample: the claimed pop-params-then-push-results rule gives
different frame sizes than `worst_case_depth` on one-operator bodies.  With
a single signature `i32 → ()`, a lone `Call` yields 5 under the source (it
pushes the one parameter) but 4 under the claimed rule, and
`I32Const; CallIndirect` yields 6 under the source (no index operand is
popped, the parameter is pushed) but 5 under the claimed rule. -/
theorem worst_case_depth_call_counterexample :
    worst_case_depth ⟨[0], [⟨[.i32], []⟩]⟩ [.Call 0] = .ok 5 ∧
    worst_case_depth_claimed ⟨[0], [⟨[.i32], []⟩]⟩ [.Call 0] = .ok 4 ∧
    worst_case_depth ⟨[0], [⟨[.i32], []⟩]⟩ [.I32Const 0, .CallIndirect 0] = .ok 6 ∧
    worst_case_depth_claimed ⟨[0], [⟨[.i32], []⟩]⟩ [.I32Const 0, .CallIndirect 0] =
      .ok 5 :=
  ⟨rfl, rfl, rfl, rfl⟩

set_option maxHeartbeats 1000000 in
/-- C1 (amended): for a resolvable `Call`, `worst_case_depth` updates the
running depth by pushing `#params` of the callee signature and then popping
`#results` (saturating), taking the running maximum over the post-push
depth; a `CallIndirect` is treated identically through the indexed
signature, with no index operand popped. -/
theorem worst_case_depth_call_rule (module : DepthModuleInfo) (s : DepthState)
    (fi si : Nat) (ty : WasmerFunctionType)
    (hf : module.functions.get? fi = some si)
    (hs : module.signatures.get? si = some ty) :
    depthStep module s (.Call fi) =
      .ok { s with
            stack := s.stack + ty.params.length - ty.results.length
            worst := max s.worst (s.stack + ty.params.length) } ∧
    depthStep module s (.CallIndirect si) =
      .ok { s with
            stack := s.stack + ty.params.length - ty.results.length
            worst := max s.worst (s.stack + ty.params.length) } := by
  constructor
  · show (match module.functions.get? fi with
      | none => (.error "No function at index" : Except String DepthState)
      | some sig =>
        match module.signatures.get? sig with
        | none => .error "No function signature for call"
        | some ty =>
          let outs := ty.params.length
          let ins := ty.results.length
          let stack := s.stack + outs
          let worst := max s.worst stack
          .ok { s with stack := stack - ins, worst := worst }) = _
    rw [hf]
    show (match module.signatures.get? si with
      | none => (.error "No function signature for call" : Except String DepthState)
      | some ty =>
        let outs := ty.params.length
        let ins := ty.results.length
        let stack := s.stack + outs
        let worst := max s.worst stack
        .ok { s with stack := stack - ins, worst := worst }) = _
    rw [hs]
  · show (match module.signatures.get? si with
      | none => (.error "No table at index" : Except String DepthState)
      | some ty =>
        let outs := ty.params.length
        let ins := ty.results.length
        let stack := s.stack + outs
        let worst := max s.worst stack
        .ok { s with stack := stack - ins, worst := worst }) = _
    rw [hs]

/-- Witness for C1's amended rule at a concrete module and state. -/
theorem worst_case_depth_call_rule_witness :
    depthStep ⟨[0], [⟨[.i32], []⟩]⟩ ⟨0, 0, [0]⟩ (.Call 0) =
      .ok { (⟨0, 0, [0]⟩ : DepthState) with
            stack := 0 + ([WasmType.i32] : List WasmType).length -
              ([] : List WasmType).length
            worst := max 0 (0 + ([WasmType.i32] : List WasmType).length) } :=
  (worst_case_depth_call_rule ⟨[0], [⟨[.i32], []⟩]⟩ ⟨0, 0, [0]⟩ 0 0 ⟨[.i32], []⟩
    rfl rfl).1

theorem operator_isEnd_iff (op : Operator) : op.isEnd = true ↔ op = .End := by
  cases op <;> simp [Operator.isEnd]

theorem feedAll_closes (module : DepthModuleInfo) (gi : Nat) :
    ∀ (body acc : List Operator) (scopes : Int) (w : Nat),
      bodyCloses scopes body = true →
      worst_case_depth module (acc ++ body) = .ok w →
      feedAll module ⟨gi, acc, scopes, false⟩ body =
        .ok (⟨gi, [], 0, true⟩, depthInstrumentedBody gi w (acc ++ body)) := by
  intro body
  induction body with
  | nil =>
    intro acc scopes w hclose
    simp [bodyCloses] at hclose
  | cons op rest ih =>
    intro acc scopes w hclose hworst
    rw [bodyCloses] at hclose
    by_cases hneg : scopes + scopeDelta op < 0
    · rw [if_pos hneg] at hclose
      exact absurd hclose (by simp)
    · rw [if_neg hneg] at hclose
      by_cases hlast : (decide (scopes + scopeDelta op = 0) && op.isEnd) = true
      · rw [if_pos hlast] at hclose
        have hrest : rest = [] := by
          cases rest with
          | nil => rfl
          | cons a b => simp [List.isEmpty] at hclose
        subst hrest
        have hparts := (Bool.and_eq_true _ _).mp hlast
        have hs0 : scopes + scopeDelta op = 0 := by
          simpa using hparts.1
        have hfeed : FunctionDepthChecker.feed module ⟨gi, acc, scopes, false⟩ op =
            .ok (⟨gi, [], 0, true⟩, depthInstrumentedBody gi w (acc ++ [op])) := by
          simp [FunctionDepthChecker.feed, hneg, hlast, hworst, hs0, hparts.2]
        simp [feedAll, hfeed]
      · rw [if_neg hlast] at hclose
        have hfeed : FunctionDepthChecker.feed module ⟨gi, acc, scopes, false⟩ op =
            .ok (⟨gi, acc ++ [op], scopes + scopeDelta op, false⟩, []) := by
          simp [FunctionDepthChecker.feed, hneg, hlast]
        have hrec := ih (acc ++ [op]) (scopes + scopeDelta op) w hclose
          (by simpa [List.append_assoc] using hworst)
        simp [feedAll, hfeed, hrec, List.append_assoc]

/-- C2: whenever `worst_case_depth` succeeds on a well-scoped body, feeding
the body emits exactly the entry prelude (trap after zeroing `stack_left`
when it is below the frame, else subtract the frame), then the original
operators with the reclaim sequence before every `Return`, then a final
reclaim, where the frame is the computed worst case plus the slack of 4
(third conjunct).  However `worst_case_depth` does not classify `Return` —
it hits the `unimplemented!` catch-all — so any body containing a `Return`
makes the pass fail instead of emitting (first conjunct), leaving the
reclaim-before-`Return` branch unreachable. -/
theorem depth_feed_contract :
    feedAll ⟨[], []⟩ (FunctionDepthChecker.new 0) [.Return, .End] =
      .error "unimplemented" ∧
    (∀ (module : DepthModuleInfo) (gi : Nat) (body : List Operator) (w : Nat),
      bodyCloses 1 body = true →
      worst_case_depth module body = .ok w →
      feedAll module (FunctionDepthChecker.new gi) body =
        .ok (⟨gi, [], 0, true⟩, depthInstrumentedBody gi w body)) ∧
    (∀ (module : DepthModuleInfo) (body : List Operator) (s : DepthState),
      body.foldlM (depthStep module) ⟨0, 0, [0]⟩ = .ok s →
      worst_case_depth module body = .ok (s.worst + 4)) := by
  refine ⟨rfl, ?_, ?_⟩
  · intro module gi body w h1 h2
    have h := feedAll_closes module gi body [] 1 w h1 (by simpa using h2)
    simpa [FunctionDepthChecker.new] using h
  · intro module body s h
    unfold worst_case_depth
    rw [h]
    rfl

/-- Witness for C2's emission clauses on a `Return`-free body. -/
theorem depth_feed_contract_witness :
    feedAll ⟨[], []⟩ (FunctionDepthChecker.new 0) [.I32Const 5, .Drop, .End] =
      .ok (⟨0, [], 0, true⟩, depthInstrumentedBody 0 5 [.I32Const 5, .Drop, .End]) :=
  depth_feed_contract.2.1 ⟨[], []⟩ 0 [.I32Const 5, .Drop, .End] 5 rfl rfl
